import Mathlib

/-!
Verification development for the simulation core of the `tower_def`
tower-defense game (`src/main.rs`).

The core consists of four per-tick systems over an entity/component store:
`tower_shooting` (target acquisition and firing), `move_bullets`,
`move_targets` and `bullet_despawn` (lifetime expiry with recursive
removal of child entities).

Modelling conventions:
* `f32` scalars are modelled as exact rationals (`ℚ`); every concrete value
  appearing in the program (`2.5`, `1.0`, ...) is a rational, and the only
  irrational operation, square root (inside `Vec3::distance` and
  `Vec3::normalize`), is modelled over `ℝ` where it occurs.
* The engine's `Timer` type is an external library type whose source is not
  part of this repository; it is modelled from the specification's timer
  contract (see `Timer.tick`).
* The parent/child entity hierarchy is modelled as a forest (each entity has
  at most one parent and towers/bullets never form cycles), encoded as a
  first-order inductive `Forest` with explicit child and sibling links.
-/

/-- A 3-vector with exact rational coordinates, modelling `glam::Vec3`
(whose `f32` coordinates are all rational). -/
structure Vec3 where
  x : ℚ
  y : ℚ
  z : ℚ
deriving DecidableEq, Repr

instance : Add Vec3 := ⟨fun a b => ⟨a.x + b.x, a.y + b.y, a.z + b.z⟩⟩

instance : Sub Vec3 := ⟨fun a b => ⟨a.x - b.x, a.y - b.y, a.z - b.z⟩⟩

/-- Squared Euclidean distance between two points.  `Vec3::distance` in the
program is the square root of this quantity; since the square root is
strictly monotone on nonnegative reals, comparing distances (as the firing
system's `min_by_key` does through `FloatOrd`) is equivalent to comparing
squared distances, which keeps the selection computable.  Theorems about
nearest-target selection are stated with the genuine Euclidean distance
`Real.sqrt (distSq a b)`. -/
def distSq (a b : Vec3) : ℚ :=
  (a.x - b.x) ^ 2 + (a.y - b.y) ^ 2 + (a.z - b.z) ^ 2

/-- A rotation quaternion, modelling `glam::Quat`.  No system in the core
ever reads or writes a rotation, so its algebra is irrelevant; it is carried
only so that theorems can state that rotations are untouched. -/
structure Quat where
  qx : ℚ
  qy : ℚ
  qz : ℚ
  qw : ℚ
deriving DecidableEq, Repr

/-- Modelling `bevy::Transform`: translation, rotation and scale. -/
structure Transform where
  translation : Vec3
  rotation : Quat
  scale : Vec3
deriving DecidableEq, Repr

/-- `Transform::from_translation`: identity rotation and unit scale. -/
def Transform.from_translation (v : Vec3) : Transform :=
  { translation := v, rotation := ⟨0, 0, 0, 1⟩, scale := ⟨1, 1, 1⟩ }

/-- Modelling `bevy::GlobalTransform` as far as the core reads it: the
systems only ever call `.translation()`. -/
structure GlobalTransform where
  translation : Vec3
deriving DecidableEq, Repr

/-- `e` reduced modulo `d`: the wrap applied to a repeating timer's elapsed
time when it completes. -/
def qmod (e d : ℚ) : ℚ := e - d * (⌊e / d⌋ : ℤ)

/-- Modelled from the spec: the engine's `Timer` (used for tower cooldowns
and bullet lifetimes) is an external library type whose source is not in
this repository; this structure and `Timer.tick` follow the specification's
timer contract: elapsed time, a fixed duration, a repeat flag, an
edge-triggered one-tick `just_finished` flag, and a sticky `finished` flag
for non-repeating timers. -/
structure Timer where
  elapsed : ℚ
  duration : ℚ
  repeating : Bool
  finished : Bool
  justFinished : Bool
deriving DecidableEq, Repr

/-- `Timer::from_seconds duration repeating`: a fresh timer. -/
def Timer.from_seconds (duration : ℚ) (repeating : Bool) : Timer :=
  { elapsed := 0, duration := duration, repeating := repeating,
    finished := false, justFinished := false }

/-- Modelled from the spec: `Timer::tick(delta)` adds `delta` to the elapsed
time; if the elapsed time reaches the duration, the one-tick
`just_finished` flag is set and, if repeating, the elapsed time wraps
modulo the duration, otherwise it clamps at the duration and the timer
stays finished until externally reset (a finished non-repeating timer
ignores further ticks and reports `just_finished = false` on them). -/
def Timer.tick (t : Timer) (delta : ℚ) : Timer :=
  if t.finished && !t.repeating then
    { t with justFinished := false }
  else
    let e := t.elapsed + delta
    if t.duration ≤ e then
      if t.repeating then
        { t with elapsed := qmod e t.duration, finished := true, justFinished := true }
      else
        { t with elapsed := t.duration, finished := true, justFinished := true }
    else
      { t with elapsed := e, justFinished := false }

/-- Folding `Timer.tick` over a sequence of deltas. -/
def Timer.ticks (t : Timer) : List ℚ → Timer
  | [] => t
  | d :: ds => (t.tick d).ticks ds

/-- The `Bullet` component: direction fixed at spawn (not normalized) and a
speed. -/
structure Bullet where
  direction : Vec3
  speed : ℚ
deriving DecidableEq, Repr

/-- The `Target` component. -/
structure Target where
  speed : ℚ
deriving DecidableEq, Repr

/-- The `Health` component (attached to targets, never read by any system). -/
structure Health where
  value : ℤ
deriving DecidableEq, Repr

/-- The `Lifetime` component: a despawn countdown. -/
structure Lifetime where
  timer : Timer
deriving DecidableEq, Repr

/-- The `Tower` component: a cooldown timer and the bullet spawn offset. -/
structure Tower where
  shooting_timer : Timer
  bullet_offset : Vec3
deriving DecidableEq, Repr

/-- Rust's `Iterator::min_by_key` over a key into `ℚ` (the program's key is
`FloatOrd(Vec3::distance(target, bullet_spawn))`; see `distSq`): `none` on an
empty iterator, otherwise the element with the least key, the first such
element when several are tied. -/
def minByKey {α : Type} (key : α → ℚ) : List α → Option α
  | [] => none
  | a :: as => some (as.foldl (fun acc b => if key b < key acc then b else acc) a)

/-- The record of one bullet spawned by `tower_shooting`: the bullet entity
is created as a child of the tower entity `parent`, with the local transform,
`Lifetime` and `Bullet` components given to it in the source. -/
structure BulletSpawn where
  parent : ℕ
  transform : Transform
  lifetime : Lifetime
  bullet : Bullet
  name : String
deriving DecidableEq, Repr

/-- The body of the `tower_shooting` system for one tower: tick the cooldown
timer; if it just finished, aim at the target closest to the bullet spawn
point (tower world translation plus `bullet_offset`) and spawn a bullet as a
child of the tower; with no targets, spawn nothing.  Returns the updated
`Tower` component and the optional spawn. -/
def tower_shooting_step (tower_ent : ℕ) (tower : Tower) (transform : GlobalTransform)
    (targets : List GlobalTransform) (delta : ℚ) : Tower × Option BulletSpawn :=
  let tower := { tower with shooting_timer := tower.shooting_timer.tick delta }
  if tower.shooting_timer.justFinished then
    let bullet_spawn := transform.translation + tower.bullet_offset
    let direction := (minByKey
        (fun target_transform => distSq target_transform.translation bullet_spawn)
        targets).map
      (fun closest_target => closest_target.translation - bullet_spawn)
    match direction with
    | some direction =>
        (tower,
         some { parent := tower_ent,
                transform := Transform.from_translation tower.bullet_offset,
                lifetime := { timer := Timer.from_seconds (5/2) false },
                bullet := { direction := direction, speed := 5/2 },
                name := "Bullet" })
    | none => (tower, none)
  else
    (tower, none)

/-- The whole `tower_shooting` system: one pass over the tower query,
returning the updated `Tower` components and the list of spawned bullets. -/
def tower_shooting (towers : List (ℕ × Tower × GlobalTransform))
    (targets : List GlobalTransform) (delta : ℚ) :
    List (ℕ × Tower) × List BulletSpawn :=
  match towers with
  | [] => ([], [])
  | (tower_ent, tower, transform) :: rest =>
      let fired := tower_shooting_step tower_ent tower transform targets delta
      let rec_rest := tower_shooting rest targets delta
      ((tower_ent, fired.1) :: rec_rest.1, fired.2.toList ++ rec_rest.2)

/-- Running `tower_shooting_step` for one tower over a sequence of ticks
with a fixed target set, accumulating every bullet spawned. -/
def tower_shooting_run (tower_ent : ℕ) (tower : Tower) (transform : GlobalTransform)
    (targets : List GlobalTransform) : List ℚ → Tower × List BulletSpawn
  | [] => (tower, [])
  | delta :: deltas =>
      let fired := tower_shooting_step tower_ent tower transform targets delta
      let rest := tower_shooting_run tower_ent fired.1 transform targets deltas
      (rest.1, fired.2.toList ++ rest.2)

/-- A 3-vector with real coordinates, used where the program's arithmetic is
genuinely irrational (`Vec3::normalize` divides by a square-root length). -/
structure Vec3R where
  x : ℝ
  y : ℝ
  z : ℝ

instance : Add Vec3R := ⟨fun a b => ⟨a.x + b.x, a.y + b.y, a.z + b.z⟩⟩

/-- Scalar multiplication on real 3-vectors. -/
def Vec3R.smul (v : Vec3R) (c : ℝ) : Vec3R := ⟨v.x * c, v.y * c, v.z * c⟩

/-- The exact real embedding of a rational vector. -/
def Vec3.toR (v : Vec3) : Vec3R := ⟨(v.x : ℝ), (v.y : ℝ), (v.z : ℝ)⟩

/-- Euclidean length of a real 3-vector. -/
noncomputable def Vec3R.length (v : Vec3R) : ℝ :=
  Real.sqrt (v.x ^ 2 + v.y ^ 2 + v.z ^ 2)

/-- `Vec3::normalize`: the vector divided by its Euclidean length (defined,
as in the program's contract, only for nonzero vectors). -/
noncomputable def Vec3R.normalize (v : Vec3R) : Vec3R :=
  ⟨v.x / v.length, v.y / v.length, v.z / v.length⟩

/-- A transform whose translation is a real vector, for the bullet-motion
system; rotation and scale are carried untouched. -/
structure TransformR where
  translation : Vec3R
  rotation : Quat
  scale : Vec3

/-- The body of the `move_bullets` system for one bullet:
`translation += direction.normalize() * speed * delta`.  The `Bullet`
component itself is taken by shared reference in the source and is never
mutated. -/
noncomputable def move_bullets_step (bullet : Bullet) (transform : TransformR)
    (delta : ℚ) : TransformR :=
  { transform with
    translation :=
      transform.translation +
        (bullet.direction.toR.normalize.smul ((bullet.speed : ℝ) * (delta : ℝ))) }

/-- The body of the `move_targets` system for one target:
`translation.x += speed * delta`. -/
def move_targets_step (target : Target) (transform : Transform) (delta : ℚ) : Transform :=
  { transform with
    translation := { transform.translation with
                     x := transform.translation.x + target.speed * delta } }

/-- The entity store's parent/child hierarchy, as read by `despawn_recursive`:
a forest of entities, each carrying an optional `Lifetime` component.  Per
the design notes the hierarchy is a tree (each entity has at most one parent
and towers/bullets never parent each other circularly); `cons i lt children
rest` is the entity `i` with component `lt`, its subtree of children, and its
forest of siblings. -/
inductive Forest where
  | nil : Forest
  | cons (id : ℕ) (lifetime : Option Lifetime) (children : Forest) (rest : Forest) : Forest
deriving DecidableEq, Repr

/-- Every entity id in the forest, in depth-first order. -/
def Forest.ids : Forest → List ℕ
  | .nil => []
  | .cons i _ children rest => i :: (children.ids ++ rest.ids)

/-- The root entity's `Lifetime` component, if the forest is a single-rooted
subtree (used to speak about the subtree returned by `Forest.find`). -/
def Forest.rootLifetime : Forest → Option Lifetime
  | .nil => none
  | .cons _ lt _ _ => lt

/-- The subtree rooted at entity `e`, if `e` is in the forest. -/
def Forest.find (e : ℕ) : Forest → Option Forest
  | .nil => none
  | .cons i lt children rest =>
      if i = e then some (.cons i lt children .nil)
      else
        match children.find e with
        | some t => some t
        | none => rest.find e

/-- The query-iteration half of `bullet_despawn`: every entity with a
`Lifetime` component has its timer ticked by `delta` (commands are deferred
in the engine, so every `Lifetime` in the store is ticked before any
removal takes place). -/
def Forest.tickLifetimes (delta : ℚ) : Forest → Forest
  | .nil => .nil
  | .cons i lt children rest =>
      .cons i (lt.map fun l => { timer := l.timer.tick delta })
        (children.tickLifetimes delta) (rest.tickLifetimes delta)

/-- Whether an entity's `Lifetime` timer just finished this tick (entities
without a `Lifetime` component are not despawned by `bullet_despawn`). -/
def lifetimeJustFinished : Option Lifetime → Bool
  | none => false
  | some l => l.timer.justFinished

/-- The deferred-command half of `bullet_despawn`: `despawn_recursive` is
applied to every entity whose ticked `Lifetime` timer just finished,
removing the entity and its whole subtree of descendants from the store. -/
def Forest.prune : Forest → Forest
  | .nil => .nil
  | .cons i lt children rest =>
      if lifetimeJustFinished lt then rest.prune
      else .cons i lt children.prune rest.prune

/-- One tick of the `bullet_despawn` system over the whole store: tick every
`Lifetime` timer, then recursively despawn every entity whose timer just
finished. -/
def bullet_despawn (delta : ℚ) (store : Forest) : Forest :=
  (store.tickLifetimes delta).prune

/-- `bullet_despawn` over a sequence of later ticks. -/
def bullet_despawn_run (deltas : List ℚ) (store : Forest) : Forest :=
  deltas.foldl (fun s d => bullet_despawn d s) store

/-!  ## Helper lemmas -/

lemma distSq_nonneg (a b : Vec3) : 0 ≤ distSq a b := by
  unfold distSq; positivity

lemma foldl_min_first {α : Type} (key : α → ℚ) :
    ∀ (l : List α) (a : α),
      (l.foldl (fun acc b => if key b < key acc then b else acc) a = a ∧
        ∀ b ∈ l, key a ≤ key b) ∨
      (∃ pre m post, l = pre ++ m :: post ∧
        l.foldl (fun acc b => if key b < key acc then b else acc) a = m ∧
        key m < key a ∧ (∀ b ∈ pre, key m < key b) ∧ (∀ b ∈ post, key m ≤ key b))
  | [], a => by simp
  | b :: l, a => by
    simp only [List.foldl_cons]
    by_cases hb : key b < key a
    · rw [if_pos hb]
      rcases foldl_min_first key l b with ⟨he, hall⟩ | ⟨pre, m, post, hl, he, hm, hpre, hpost⟩
      · exact Or.inr ⟨[], b, l, rfl, he, hb, by simp, hall⟩
      · refine Or.inr ⟨b :: pre, m, post, by rw [hl, List.cons_append], he, lt_trans hm hb, ?_, hpost⟩
        intro x hx
        rcases List.mem_cons.mp hx with h | h
        · exact h ▸ hm
        · exact hpre x h
    · rw [if_neg hb]
      rcases foldl_min_first key l a with ⟨he, hall⟩ | ⟨pre, m, post, hl, he, hm, hpre, hpost⟩
      · refine Or.inl ⟨he, ?_⟩
        intro x hx
        rcases List.mem_cons.mp hx with h | h
        · exact h ▸ le_of_not_lt hb
        · exact hall x h
      · refine Or.inr ⟨b :: pre, m, post, by rw [hl, List.cons_append], he, hm, ?_, hpost⟩
        intro x hx
        rcases List.mem_cons.mp hx with h | h
        · exact h ▸ lt_of_lt_of_le hm (le_of_not_lt hb)
        · exact hpre x h

/-- `minByKey` on a non-empty list returns the first element attaining the
minimal key: every strictly earlier element has a strictly larger key and
every element has a key at least as large. -/
lemma minByKey_first_min {α : Type} (key : α → ℚ) (l : List α) (hne : l ≠ []) :
    ∃ pre sel post, minByKey key l = some sel ∧ l = pre ++ sel :: post ∧
      (∀ b ∈ pre, key sel < key b) ∧ (∀ b ∈ l, key sel ≤ key b) := by
  match l with
  | [] => exact absurd rfl hne
  | a :: as =>
    rcases foldl_min_first key as a with ⟨he, hall⟩ | ⟨pre, m, post, hl, he, hm, hpre, hpost⟩
    · refine ⟨[], a, as, ?_, by simp, by simp, ?_⟩
      · simp [minByKey, he]
      · intro b hb
        rcases List.mem_cons.mp hb with h | h
        · exact h ▸ le_rfl
        · exact hall b h
    · refine ⟨a :: pre, m, post, ?_, by rw [hl, List.cons_append], ?_, ?_⟩
      · simp [minByKey, he]
      · intro b hb
        rcases List.mem_cons.mp hb with h | h
        · exact h ▸ hm
        · exact hpre b h
      · intro b hb
        rcases List.mem_cons.mp hb with h | h
        · exact h ▸ le_of_lt hm
        · rw [hl] at h
          rcases List.mem_append.mp h with h' | h'
          · exact le_of_lt (hpre b h')
          · rcases List.mem_cons.mp h' with h'' | h''
            · exact h'' ▸ le_rfl
            · exact hpost b h''

/-- The fired branch of `tower_shooting_step`: when the ticked cooldown
timer just finished and `minByKey` picks `sel`, exactly one bullet is
spawned, aimed `sel.translation - bullet_spawn`. -/
lemma tower_shooting_step_spawn (tower_ent : ℕ) (tower : Tower)
    (transform : GlobalTransform) (targets : List GlobalTransform) (delta : ℚ)
    (sel : GlobalTransform)
    (hfire : (tower.shooting_timer.tick delta).justFinished = true)
    (hsel : minByKey
        (fun target_transform =>
          distSq target_transform.translation (transform.translation + tower.bullet_offset))
        targets = some sel) :
    (tower_shooting_step tower_ent tower transform targets delta).2 =
      some { parent := tower_ent,
             transform := Transform.from_translation tower.bullet_offset,
             lifetime := { timer := Timer.from_seconds (5/2) false },
             bullet := { direction :=
                           sel.translation - (transform.translation + tower.bullet_offset),
                         speed := 5/2 },
             name := "Bullet" } := by
  unfold tower_shooting_step
  simp [hfire, hsel]

/-!  ## Claims -/

/-- C1: when a tower's cooldown timer completes on a tick and the target set
is non-empty, the firing system selects the target whose world translation
minimizes the Euclidean distance to the spawn point (tower world translation
plus `bullet_offset`), and the spawned bullet's direction is that closest
target's world translation minus the spawn point, not normalized at spawn. -/
theorem tower_fires_at_closest_target (tower_ent : ℕ) (tower : Tower)
    (transform : GlobalTransform) (targets : List GlobalTransform) (delta : ℚ)
    (hfire : (tower.shooting_timer.tick delta).justFinished = true)
    (hne : targets ≠ []) :
    ∃ sel ∈ targets,
      (∀ other ∈ targets,
        Real.sqrt (distSq sel.translation (transform.translation + tower.bullet_offset)) ≤
          Real.sqrt (distSq other.translation (transform.translation + tower.bullet_offset))) ∧
      ∃ b, (tower_shooting_step tower_ent tower transform targets delta).2 = some b ∧
        b.bullet.direction =
          sel.translation - (transform.translation + tower.bullet_offset) := by
  obtain ⟨pre, sel, post, hsel, hsplit, _, hmin⟩ :=
    minByKey_first_min
      (fun target_transform =>
        distSq target_transform.translation (transform.translation + tower.bullet_offset))
      targets hne
  refine ⟨sel, by rw [hsplit]; exact List.mem_append_right _ (List.mem_cons_self _ _), ?_, ?_⟩
  · intro other hother
    exact Real.sqrt_le_sqrt (by exact_mod_cast hmin other hother)
  · exact ⟨_, tower_shooting_step_spawn tower_ent tower transform targets delta sel hfire hsel,
      rfl⟩

/-- Witness for C1 at the specification's example distances 5, 2, 8: the
tower at the origin with a just-completed one-second cooldown fires at the
target at distance 2. -/
theorem tower_fires_at_closest_target_witness :
    ∃ sel ∈ [GlobalTransform.mk ⟨5, 0, 0⟩, ⟨⟨2, 0, 0⟩⟩, ⟨⟨8, 0, 0⟩⟩],
      (∀ other ∈ [GlobalTransform.mk ⟨5, 0, 0⟩, ⟨⟨2, 0, 0⟩⟩, ⟨⟨8, 0, 0⟩⟩],
        Real.sqrt (distSq sel.translation
            ((GlobalTransform.mk ⟨0, 0, 0⟩).translation +
              (Tower.mk ⟨0, 1, true, false, false⟩ ⟨0, 0, 0⟩).bullet_offset)) ≤
          Real.sqrt (distSq other.translation
            ((GlobalTransform.mk ⟨0, 0, 0⟩).translation +
              (Tower.mk ⟨0, 1, true, false, false⟩ ⟨0, 0, 0⟩).bullet_offset))) ∧
      ∃ b, (tower_shooting_step 7 ⟨⟨0, 1, true, false, false⟩, ⟨0, 0, 0⟩⟩ ⟨⟨0, 0, 0⟩⟩
              [⟨⟨5, 0, 0⟩⟩, ⟨⟨2, 0, 0⟩⟩, ⟨⟨8, 0, 0⟩⟩] 1).2 = some b ∧
        b.bullet.direction =
          sel.translation -
            ((GlobalTransform.mk ⟨0, 0, 0⟩).translation +
              (Tower.mk ⟨0, 1, true, false, false⟩ ⟨0, 0, 0⟩).bullet_offset) :=
  tower_fires_at_closest_target 7 ⟨⟨0, 1, true, false, false⟩, ⟨0, 0, 0⟩⟩ ⟨⟨0, 0, 0⟩⟩
    [⟨⟨5, 0, 0⟩⟩, ⟨⟨2, 0, 0⟩⟩, ⟨⟨8, 0, 0⟩⟩] 1 (by norm_num [Timer.tick]) (by decide)

/-- C2: with ties at the minimal distance, the firing system selects the
target encountered first in iteration order: the selected target splits the
target list so that every strictly earlier target is strictly farther from
the spawn point and no target is closer.  (The embedded system is a pure
function of the query lists, so the selection is deterministic for a fixed
iteration order.) -/
theorem tower_tie_break_first_encountered (tower_ent : ℕ) (tower : Tower)
    (transform : GlobalTransform) (targets : List GlobalTransform) (delta : ℚ)
    (hfire : (tower.shooting_timer.tick delta).justFinished = true)
    (hne : targets ≠ []) :
    ∃ pre sel post, targets = pre ++ sel :: post ∧
      (∀ earlier ∈ pre,
        Real.sqrt (distSq sel.translation (transform.translation + tower.bullet_offset)) <
          Real.sqrt (distSq earlier.translation (transform.translation + tower.bullet_offset))) ∧
      (∀ other ∈ targets,
        Real.sqrt (distSq sel.translation (transform.translation + tower.bullet_offset)) ≤
          Real.sqrt (distSq other.translation (transform.translation + tower.bullet_offset))) ∧
      ∃ b, (tower_shooting_step tower_ent tower transform targets delta).2 = some b ∧
        b.bullet.direction =
          sel.translation - (transform.translation + tower.bullet_offset) := by
  obtain ⟨pre, sel, post, hsel, hsplit, hpre, hmin⟩ :=
    minByKey_first_min
      (fun target_transform =>
        distSq target_transform.translation (transform.translation + tower.bullet_offset))
      targets hne
  refine ⟨pre, sel, post, hsplit, ?_, ?_, ?_⟩
  · intro earlier hearlier
    exact Real.sqrt_lt_sqrt (by exact_mod_cast distSq_nonneg _ _)
      (by exact_mod_cast hpre earlier hearlier)
  · intro other hother
    exact Real.sqrt_le_sqrt (by exact_mod_cast hmin other hother)
  · exact ⟨_, tower_shooting_step_spawn tower_ent tower transform targets delta sel hfire hsel,
      rfl⟩

/-- Witness for C2: two targets tied at distance 2 on either side of the
origin; the firing system selects the first one in iteration order. -/
theorem tower_tie_break_first_encountered_witness :
    ∃ pre sel post,
      [GlobalTransform.mk ⟨2, 0, 0⟩, ⟨⟨-2, 0, 0⟩⟩] = pre ++ sel :: post ∧
      (∀ earlier ∈ pre,
        Real.sqrt (distSq sel.translation
            ((GlobalTransform.mk ⟨0, 0, 0⟩).translation +
              (Tower.mk ⟨0, 1, true, false, false⟩ ⟨0, 0, 0⟩).bullet_offset)) <
          Real.sqrt (distSq earlier.translation
            ((GlobalTransform.mk ⟨0, 0, 0⟩).translation +
              (Tower.mk ⟨0, 1, true, false, false⟩ ⟨0, 0, 0⟩).bullet_offset))) ∧
      (∀ other ∈ [GlobalTransform.mk ⟨2, 0, 0⟩, ⟨⟨-2, 0, 0⟩⟩],
        Real.sqrt (distSq sel.translation
            ((GlobalTransform.mk ⟨0, 0, 0⟩).translation +
              (Tower.mk ⟨0, 1, true, false, false⟩ ⟨0, 0, 0⟩).bullet_offset)) ≤
          Real.sqrt (distSq other.translation
            ((GlobalTransform.mk ⟨0, 0, 0⟩).translation +
              (Tower.mk ⟨0, 1, true, false, false⟩ ⟨0, 0, 0⟩).bullet_offset))) ∧
      ∃ b, (tower_shooting_step 7 ⟨⟨0, 1, true, false, false⟩, ⟨0, 0, 0⟩⟩ ⟨⟨0, 0, 0⟩⟩
              [⟨⟨2, 0, 0⟩⟩, ⟨⟨-2, 0, 0⟩⟩] 1).2 = some b ∧
        b.bullet.direction =
          sel.translation -
            ((GlobalTransform.mk ⟨0, 0, 0⟩).translation +
              (Tower.mk ⟨0, 1, true, false, false⟩ ⟨0, 0, 0⟩).bullet_offset) :=
  tower_tie_break_first_encountered 7 ⟨⟨0, 1, true, false, false⟩, ⟨0, 0, 0⟩⟩ ⟨⟨0, 0, 0⟩⟩
    [⟨⟨2, 0, 0⟩⟩, ⟨⟨-2, 0, 0⟩⟩] 1 (by norm_num [Timer.tick]) (by decide)

lemma tower_shooting_step_fst (tower_ent : ℕ) (tower : Tower) (transform : GlobalTransform)
    (targets : List GlobalTransform) (delta : ℚ) :
    (tower_shooting_step tower_ent tower transform targets delta).1 =
      { tower with shooting_timer := tower.shooting_timer.tick delta } := by
  unfold tower_shooting_step
  dsimp only
  split
  · split <;> rfl
  · rfl

lemma tower_shooting_step_none_of_no_targets (tower_ent : ℕ) (tower : Tower)
    (transform : GlobalTransform) (delta : ℚ) :
    (tower_shooting_step tower_ent tower transform [] delta).2 = none := by
  unfold tower_shooting_step
  dsimp only
  split <;> simp [minByKey]

lemma Timer.tick_duration (t : Timer) (delta : ℚ) :
    (t.tick delta).duration = t.duration := by
  unfold Timer.tick
  split
  · rfl
  · dsimp only
    split
    · split <;> rfl
    · rfl

lemma Timer.tick_repeating (t : Timer) (delta : ℚ) :
    (t.tick delta).repeating = t.repeating := by
  unfold Timer.tick
  split
  · rfl
  · dsimp only
    split
    · split <;> rfl
    · rfl

lemma qmod_nonneg (e d : ℚ) (he : 0 ≤ e) (hd : 0 ≤ d) : 0 ≤ qmod e d := by
  rcases eq_or_lt_of_le hd with h | h
  · simp [qmod, ← h]
    exact he
  · have hfl : ((⌊e / d⌋ : ℤ) : ℚ) ≤ e / d := Int.floor_le _
    have : d * ((⌊e / d⌋ : ℤ) : ℚ) ≤ d * (e / d) := by
      exact mul_le_mul_of_nonneg_left hfl (le_of_lt h)
    rw [mul_div_cancel₀ e (ne_of_gt h)] at this
    unfold qmod
    linarith

lemma Timer.tick_elapsed_nonneg (t : Timer) (delta : ℚ)
    (he : 0 ≤ t.elapsed) (hd : 0 ≤ t.duration) (hδ : 0 ≤ delta) :
    0 ≤ (t.tick delta).elapsed := by
  unfold Timer.tick
  split
  · exact he
  · dsimp only
    split
    · split
      · exact qmod_nonneg _ _ (by linarith) hd
      · exact hd
    · dsimp only
      linarith

/-- C3: when the target set is empty, every tick of the firing system is a
silent no-op: over any sequence of ticks with zero targets, no bullet is
ever spawned (the embedding is total, so no error can be raised), and the
cooldown timer's elapsed time never drops below zero. -/
theorem no_targets_never_spawns (tower_ent : ℕ) (tower : Tower)
    (transform : GlobalTransform) (deltas : List ℚ)
    (he : 0 ≤ tower.shooting_timer.elapsed)
    (hd : 0 ≤ tower.shooting_timer.duration)
    (hδ : ∀ d ∈ deltas, 0 ≤ d) :
    (tower_shooting_run tower_ent tower transform [] deltas).2 = [] ∧
    0 ≤ (tower_shooting_run tower_ent tower transform [] deltas).1.shooting_timer.elapsed := by
  induction deltas generalizing tower with
  | nil => exact ⟨rfl, he⟩
  | cons d ds ih =>
      have hstep := tower_shooting_step_fst tower_ent tower transform [] d
      have hnone := tower_shooting_step_none_of_no_targets tower_ent tower transform d
      have he' : 0 ≤ (tower_shooting_step tower_ent tower transform [] d).1.shooting_timer.elapsed := by
        rw [hstep]
        exact Timer.tick_elapsed_nonneg _ _ he hd (hδ d (List.mem_cons_self _ _))
      have hd' : 0 ≤ (tower_shooting_step tower_ent tower transform [] d).1.shooting_timer.duration := by
        rw [hstep]
        exact (Timer.tick_duration _ _).symm ▸ hd
      have := ih (tower_shooting_step tower_ent tower transform [] d).1 he' hd'
        (fun x hx => hδ x (List.mem_cons_of_mem _ hx))
      unfold tower_shooting_run
      dsimp only
      rw [hnone]
      exact ⟨by simpa using this.1, this.2⟩

/-- Witness for C3: a tower with a one-second repeating cooldown ticked
three times with no targets spawns nothing and keeps a nonnegative elapsed
time. -/
theorem no_targets_never_spawns_witness :
    (tower_shooting_run 7 ⟨⟨0, 1, true, false, false⟩, ⟨0, 0, 0⟩⟩ ⟨⟨0, 0, 0⟩⟩ []
        [1, 1/2, 3]).2 = [] ∧
    0 ≤ (tower_shooting_run 7 ⟨⟨0, 1, true, false, false⟩, ⟨0, 0, 0⟩⟩ ⟨⟨0, 0, 0⟩⟩ []
        [1, 1/2, 3]).1.shooting_timer.elapsed :=
  no_targets_never_spawns 7 ⟨⟨0, 1, true, false, false⟩, ⟨0, 0, 0⟩⟩ ⟨⟨0, 0, 0⟩⟩
    [1, 1/2, 3] (by norm_num) (by norm_num) (by norm_num)

/-- C4: every bullet the firing system spawns is created as a child of the
firing tower, with speed the fixed constant `2.5` and a fresh non-repeating
`Lifetime` timer of duration `2.5` seconds. -/
theorem spawned_bullet_fields (tower_ent : ℕ) (tower : Tower) (transform : GlobalTransform)
    (targets : List GlobalTransform) (delta : ℚ) (b : BulletSpawn)
    (hspawn : (tower_shooting_step tower_ent tower transform targets delta).2 = some b) :
    b.parent = tower_ent ∧ b.bullet.speed = 5/2 ∧
    b.lifetime.timer = Timer.from_seconds (5/2) false := by
  unfold tower_shooting_step at hspawn
  dsimp only at hspawn
  split at hspawn
  · split at hspawn
    · cases hspawn
      exact ⟨rfl, rfl, rfl⟩
    · cases hspawn
  · cases hspawn

@[simp] lemma Vec3.mk_add_mk (a b c d e f : ℚ) :
    (Vec3.mk a b c + Vec3.mk d e f) = Vec3.mk (a + d) (b + e) (c + f) := rfl

@[simp] lemma Vec3.mk_sub_mk (a b c d e f : ℚ) :
    (Vec3.mk a b c - Vec3.mk d e f) = Vec3.mk (a - d) (b - e) (c - f) := rfl

/-- Witness for C4: a concrete firing tick; the spawned bullet is a child of
tower `7`, has speed `2.5` and a fresh non-repeating `2.5`-second lifetime. -/
theorem spawned_bullet_fields_witness :
    (BulletSpawn.mk 7 (Transform.from_translation ⟨0, 0, 0⟩)
        ⟨Timer.from_seconds (5/2) false⟩ ⟨⟨2, 0, 0⟩, 5/2⟩ "Bullet").parent = 7 ∧
    (BulletSpawn.mk 7 (Transform.from_translation ⟨0, 0, 0⟩)
        ⟨Timer.from_seconds (5/2) false⟩ ⟨⟨2, 0, 0⟩, 5/2⟩ "Bullet").bullet.speed = 5/2 ∧
    (BulletSpawn.mk 7 (Transform.from_translation ⟨0, 0, 0⟩)
        ⟨Timer.from_seconds (5/2) false⟩ ⟨⟨2, 0, 0⟩, 5/2⟩ "Bullet").lifetime.timer =
      Timer.from_seconds (5/2) false :=
  spawned_bullet_fields 7 ⟨⟨0, 1, true, false, false⟩, ⟨0, 0, 0⟩⟩ ⟨⟨0, 0, 0⟩⟩
    [⟨⟨2, 0, 0⟩⟩] 1 _
    (by norm_num [tower_shooting_step, Timer.tick, minByKey])

@[simp] lemma Vec3R.mk_add_mkR (a b c d e f : ℝ) :
    (Vec3R.mk a b c + Vec3R.mk d e f) = Vec3R.mk (a + d) (b + e) (c + f) := rfl

/-- C5: one tick of the bullet-motion system adds
`normalize(direction) * speed * delta` to the bullet's translation and
changes nothing else (rotation and scale are untouched; the `Bullet`
component is read through a shared reference and never mutated); in
particular a bullet with direction `(1,0,0)` and speed `2.5` ticked with
delta `1.0` moves exactly `+2.5` along `x` and `0` on `y` and `z`. -/
theorem move_bullets_adds_normalized_direction (bullet : Bullet) (transform : TransformR)
    (delta : ℚ) (hnz : bullet.direction ≠ ⟨0, 0, 0⟩) :
    (move_bullets_step bullet transform delta).translation =
      transform.translation +
        bullet.direction.toR.normalize.smul ((bullet.speed : ℝ) * (delta : ℝ)) ∧
    (move_bullets_step bullet transform delta).rotation = transform.rotation ∧
    (move_bullets_step bullet transform delta).scale = transform.scale ∧
    (move_bullets_step ⟨⟨1, 0, 0⟩, 5/2⟩ transform 1).translation.x =
      transform.translation.x + 5/2 ∧
    (move_bullets_step ⟨⟨1, 0, 0⟩, 5/2⟩ transform 1).translation.y =
      transform.translation.y ∧
    (move_bullets_step ⟨⟨1, 0, 0⟩, 5/2⟩ transform 1).translation.z =
      transform.translation.z := by
  refine ⟨rfl, rfl, rfl, ?_, ?_, ?_⟩ <;>
    · obtain ⟨⟨tx, ty, tz⟩, rot, sc⟩ := transform
      norm_num [move_bullets_step, Vec3.toR, Vec3R.normalize, Vec3R.length, Vec3R.smul]

/-- Witness for C5: the concrete bullet with direction `(1,0,0)`. -/
theorem move_bullets_adds_normalized_direction_witness :
    (move_bullets_step ⟨⟨1, 0, 0⟩, 5/2⟩ ⟨⟨0, 0, 0⟩, ⟨0, 0, 0, 1⟩, ⟨1, 1, 1⟩⟩ 1).translation =
      (TransformR.mk ⟨0, 0, 0⟩ ⟨0, 0, 0, 1⟩ ⟨1, 1, 1⟩).translation +
        (Bullet.mk ⟨1, 0, 0⟩ (5/2)).direction.toR.normalize.smul
          (((Bullet.mk ⟨1, 0, 0⟩ (5/2)).speed : ℝ) * ((1 : ℚ) : ℝ)) ∧
    (move_bullets_step ⟨⟨1, 0, 0⟩, 5/2⟩ ⟨⟨0, 0, 0⟩, ⟨0, 0, 0, 1⟩, ⟨1, 1, 1⟩⟩ 1).rotation =
      (TransformR.mk ⟨0, 0, 0⟩ ⟨0, 0, 0, 1⟩ ⟨1, 1, 1⟩).rotation ∧
    (move_bullets_step ⟨⟨1, 0, 0⟩, 5/2⟩ ⟨⟨0, 0, 0⟩, ⟨0, 0, 0, 1⟩, ⟨1, 1, 1⟩⟩ 1).scale =
      (TransformR.mk ⟨0, 0, 0⟩ ⟨0, 0, 0, 1⟩ ⟨1, 1, 1⟩).scale ∧
    (move_bullets_step ⟨⟨1, 0, 0⟩, 5/2⟩ ⟨⟨0, 0, 0⟩, ⟨0, 0, 0, 1⟩, ⟨1, 1, 1⟩⟩ 1).translation.x =
      (TransformR.mk ⟨0, 0, 0⟩ ⟨0, 0, 0, 1⟩ ⟨1, 1, 1⟩).translation.x + 5/2 ∧
    (move_bullets_step ⟨⟨1, 0, 0⟩, 5/2⟩ ⟨⟨0, 0, 0⟩, ⟨0, 0, 0, 1⟩, ⟨1, 1, 1⟩⟩ 1).translation.y =
      (TransformR.mk ⟨0, 0, 0⟩ ⟨0, 0, 0, 1⟩ ⟨1, 1, 1⟩).translation.y ∧
    (move_bullets_step ⟨⟨1, 0, 0⟩, 5/2⟩ ⟨⟨0, 0, 0⟩, ⟨0, 0, 0, 1⟩, ⟨1, 1, 1⟩⟩ 1).translation.z =
      (TransformR.mk ⟨0, 0, 0⟩ ⟨0, 0, 0, 1⟩ ⟨1, 1, 1⟩).translation.z :=
  move_bullets_adds_normalized_direction ⟨⟨1, 0, 0⟩, 5/2⟩
    ⟨⟨0, 0, 0⟩, ⟨0, 0, 0, 1⟩, ⟨1, 1, 1⟩⟩ 1 (by simp)

/-- C6: one tick of the target-motion system adds `speed * delta` to
`translation.x` only; `translation.y`, `translation.z`, the rotation and the
scale are unchanged (the `Target` component is read through a shared
reference and never mutated). -/
theorem move_targets_lateral_only (target : Target) (transform : Transform) (delta : ℚ) :
    (move_targets_step target transform delta).translation.x =
      transform.translation.x + target.speed * delta ∧
    (move_targets_step target transform delta).translation.y = transform.translation.y ∧
    (move_targets_step target transform delta).translation.z = transform.translation.z ∧
    (move_targets_step target transform delta).rotation = transform.rotation ∧
    (move_targets_step target transform delta).scale = transform.scale :=
  ⟨rfl, rfl, rfl, rfl, rfl⟩

lemma Timer.tick_of_finished (t : Timer) (delta : ℚ)
    (hf : t.finished = true) (hr : t.repeating = false) :
    t.tick delta = { t with justFinished := false } := by
  simp [Timer.tick, hf, hr]

lemma Timer.ticks_of_finished (t : Timer) (ds : List ℚ)
    (hf : t.finished = true) (hr : t.repeating = false) (hj : t.justFinished = false) :
    t.ticks ds = { t with justFinished := false } := by
  induction ds generalizing t with
  | nil =>
      cases t
      simp_all [Timer.ticks]
  | cons d ds ih =>
      rw [Timer.ticks, Timer.tick_of_finished t d hf hr]
      exact ih _ hf hr rfl


/-- C7 (timer modelled from the spec): `just_finished` is edge-triggered.
For a fresh non-repeating timer of duration `D` and any `0 < ε ≤ D`,
ticking by `D - ε` reports not-just-finished, the following tick by `ε`
reports just-finished, and any further non-empty sequence of ticks never
reports just-finished again without an external reset; moreover a tick with
delta zero never triggers completion, for any timer that is not already past
its duration (which covers every state reachable from construction). -/
theorem timer_just_finished_edge_triggered (D ε d0 : ℚ) (ds : List ℚ) (t : Timer)
    (hD : 0 < D) (hε : 0 < ε) (hεD : ε ≤ D)
    (hinv : t.elapsed < t.duration ∨ (t.finished = true ∧ t.repeating = false)) :
    ((Timer.from_seconds D false).tick (D - ε)).justFinished = false ∧
    (((Timer.from_seconds D false).tick (D - ε)).tick ε).justFinished = true ∧
    ((((Timer.from_seconds D false).tick (D - ε)).tick ε).ticks (d0 :: ds)).justFinished
      = false ∧
    (t.tick 0).justFinished = false := by
  have h1 : (Timer.from_seconds D false).tick (D - ε) =
      { elapsed := D - ε, duration := D, repeating := false,
        finished := false, justFinished := false } := by
    have hc : ¬ (D ≤ 0 + (D - ε)) := by linarith
    simp [Timer.from_seconds, Timer.tick, hc, hε]
  have h2 : ((Timer.from_seconds D false).tick (D - ε)).tick ε =
      { elapsed := D, duration := D, repeating := false,
        finished := true, justFinished := true } := by
    rw [h1]
    have hc : D ≤ D - ε + ε := by linarith
    simp [Timer.tick, hc]
  refine ⟨by rw [h1], by rw [h2], ?_, ?_⟩
  · rw [h2, Timer.ticks, Timer.tick_of_finished _ _ rfl rfl,
      Timer.ticks_of_finished _ _ rfl rfl rfl]
  · rcases hinv with hlt | ⟨hf, hr⟩
    · unfold Timer.tick
      split
      · rfl
      · dsimp only
        have hc : ¬ (t.duration ≤ t.elapsed) := by linarith
        simp [hc]
    · simp [Timer.tick, hf, hr]

/-- Witness for C7 at `D = 1`, `ε = 1/2`, follow-up ticks `[1, 2, 3]`, and a
fresh one-second timer for the zero-delta part. -/
theorem timer_just_finished_edge_triggered_witness :
    ((Timer.from_seconds 1 false).tick (1 - 1/2)).justFinished = false ∧
    (((Timer.from_seconds 1 false).tick (1 - 1/2)).tick (1/2)).justFinished = true ∧
    ((((Timer.from_seconds 1 false).tick (1 - 1/2)).tick (1/2)).ticks
        ((1 : ℚ) :: [2, 3])).justFinished = false ∧
    ((Timer.from_seconds 1 false).tick 0).justFinished = false :=
  timer_just_finished_edge_triggered 1 (1/2) 1 [2, 3] (Timer.from_seconds 1 false)
    (by norm_num) (by norm_num) (by norm_num)
    (Or.inl (by norm_num [Timer.from_seconds]))

lemma Forest.ids_tickLifetimes (delta : ℚ) (store : Forest) :
    (store.tickLifetimes delta).ids = store.ids := by
  induction store with
  | nil => rfl
  | cons i lt children rest ihc ihr =>
      simp [Forest.tickLifetimes, Forest.ids, ihc, ihr]

lemma Forest.mem_ids_prune (store : Forest) :
    ∀ i ∈ store.prune.ids, i ∈ store.ids := by
  induction store with
  | nil => simp [Forest.prune]
  | cons j lt children rest ihc ihr =>
      intro i hi
      unfold Forest.prune at hi
      by_cases hjf : lifetimeJustFinished lt = true
      · rw [if_pos hjf] at hi
        exact List.mem_cons_of_mem _ (List.mem_append_right _ (ihr i hi))
      · rw [if_neg hjf] at hi
        rcases List.mem_cons.mp hi with h | h
        · exact h ▸ List.mem_cons_self _ _
        · rcases List.mem_append.mp h with h' | h'
          · exact List.mem_cons_of_mem _ (List.mem_append_left _ (ihc i h'))
          · exact List.mem_cons_of_mem _ (List.mem_append_right _ (ihr i h'))

lemma Forest.mem_ids_of_find (store t : Forest) (e : ℕ) (hfind : store.find e = some t) :
    ∀ i ∈ t.ids, i ∈ store.ids := by
  induction store with
  | nil => cases hfind
  | cons j lt children rest ihc ihr =>
      unfold Forest.find at hfind
      by_cases hj : j = e
      · rw [if_pos hj] at hfind
        cases hfind
        intro i hi
        simp only [Forest.ids, List.append_nil] at hi
        rcases List.mem_cons.mp hi with h | h
        · exact h ▸ List.mem_cons_self _ _
        · exact List.mem_cons_of_mem _ (List.mem_append_left _ h)
      · rw [if_neg hj] at hfind
        intro i hi
        cases hc : children.find e with
        | some t' =>
            rw [hc] at hfind
            cases hfind
            exact List.mem_cons_of_mem _ (List.mem_append_left _ (ihc hc i hi))
        | none =>
            rw [hc] at hfind
            exact List.mem_cons_of_mem _ (List.mem_append_right _ (ihr hfind i hi))

lemma Forest.prune_removes_found (store : Forest) :
    ∀ (e : ℕ) (t : Forest), store.find e = some t →
      lifetimeJustFinished t.rootLifetime = true → store.ids.Nodup →
      ∀ i ∈ t.ids, i ∉ store.prune.ids := by
  induction store with
  | nil => intro e t hfind; cases hfind
  | cons j lt children rest ihc ihr =>
      intro e t hfind hjf hnd i hi
      replace hnd : (j :: (children.ids ++ rest.ids)).Nodup := hnd
      have hj_not : j ∉ children.ids ++ rest.ids := (List.nodup_cons.mp hnd).1
      obtain ⟨hcnd, hrnd, hdisj⟩ := List.nodup_append.mp (List.nodup_cons.mp hnd).2
      unfold Forest.find at hfind
      unfold Forest.prune
      by_cases hj : j = e
      · rw [if_pos hj] at hfind
        cases hfind
        have hjf' : lifetimeJustFinished lt = true := hjf
        rw [if_pos hjf']
        intro hmem
        have hmem' := Forest.mem_ids_prune rest i hmem
        simp only [Forest.ids, List.append_nil] at hi
        rcases List.mem_cons.mp hi with h | h
        · exact hj_not (h ▸ List.mem_append_right _ hmem')
        · exact hdisj h hmem'
      · rw [if_neg hj] at hfind
        cases hc : children.find e with
        | some t' =>
            rw [hc] at hfind
            cases hfind
            have hin : i ∈ children.ids := Forest.mem_ids_of_find children t e hc i hi
            by_cases hjf2 : lifetimeJustFinished lt = true
            · rw [if_pos hjf2]
              intro hmem
              exact hdisj hin (Forest.mem_ids_prune rest i hmem)
            · rw [if_neg hjf2]
              intro hmem
              rcases List.mem_cons.mp hmem with h | h
              · exact hj_not (h ▸ List.mem_append_left _ hin)
              · rcases List.mem_append.mp h with h' | h'
                · exact ihc e t hc hjf hcnd i hi h'
                · exact hdisj hin (Forest.mem_ids_prune rest i h')
        | none =>
            rw [hc] at hfind
            have hin : i ∈ rest.ids := Forest.mem_ids_of_find rest t e hfind i hi
            by_cases hjf2 : lifetimeJustFinished lt = true
            · rw [if_pos hjf2]
              exact ihr e t hfind hjf hrnd i hi
            · rw [if_neg hjf2]
              intro hmem
              rcases List.mem_cons.mp hmem with h | h
              · exact hj_not (h ▸ List.mem_append_right _ hin)
              · rcases List.mem_append.mp h with h' | h'
                · exact hdisj (Forest.mem_ids_prune children i h') hin
                · exact ihr e t hfind hjf hrnd i hi h'

lemma Forest.mem_ids_despawn_run (deltas : List ℚ) (store : Forest) :
    ∀ i ∈ (bullet_despawn_run deltas store).ids, i ∈ store.ids := by
  induction deltas generalizing store with
  | nil => intro i hi; exact hi
  | cons d ds ih =>
      intro i hi
      have h1 := ih (bullet_despawn d store) i hi
      have h2 := Forest.mem_ids_prune (store.tickLifetimes d) i h1
      rwa [Forest.ids_tickLifetimes] at h2

/-- C8: on the tick in which an entity's `Lifetime` timer edge-triggers, the
`bullet_despawn` system removes the entity together with its whole subtree of
descendants from the store in that same tick (their ids are disjoint from the
resulting store), and no later tick's queries ever observe the entity or any
descendant again. -/
theorem lifetime_expiry_removes_subtree (store : Forest) (delta : ℚ)
    (laterDeltas : List ℚ) (e : ℕ) (t : Forest)
    (hnd : store.ids.Nodup)
    (hfind : (store.tickLifetimes delta).find e = some t)
    (hjf : lifetimeJustFinished t.rootLifetime = true) :
    t.ids.inter (bullet_despawn delta store).ids = [] ∧
    t.ids.inter (bullet_despawn_run laterDeltas (bullet_despawn delta store)).ids = [] := by
  have hnd' : (store.tickLifetimes delta).ids.Nodup := by
    rw [Forest.ids_tickLifetimes]; exact hnd
  have hrm := Forest.prune_removes_found (store.tickLifetimes delta) e t hfind hjf hnd'
  refine ⟨List.inter_eq_nil_iff_disjoint.mpr (fun i hi hmem => hrm i hi hmem), ?_⟩
  exact List.inter_eq_nil_iff_disjoint.mpr
    (fun i hi hmem => hrm i hi (Forest.mem_ids_despawn_run laterDeltas _ i hmem))

/-- Witness for C8: entity `0` carries a one-second lifetime and one child
entity `1`; at the tick of duration `1` both ids vanish from the store and
stay absent over the later ticks `[1, 2]`. -/
theorem lifetime_expiry_removes_subtree_witness :
    (Forest.cons 0 (some ⟨⟨1, 1, false, true, true⟩⟩)
        (Forest.cons 1 none .nil .nil) .nil).ids.inter
      (bullet_despawn 1 (Forest.cons 0 (some ⟨⟨0, 1, false, false, false⟩⟩)
        (Forest.cons 1 none .nil .nil) .nil)).ids = [] ∧
    (Forest.cons 0 (some ⟨⟨1, 1, false, true, true⟩⟩)
        (Forest.cons 1 none .nil .nil) .nil).ids.inter
      (bullet_despawn_run [1, 2]
        (bullet_despawn 1 (Forest.cons 0 (some ⟨⟨0, 1, false, false, false⟩⟩)
          (Forest.cons 1 none .nil .nil) .nil))).ids = [] :=
  lifetime_expiry_removes_subtree
    (Forest.cons 0 (some ⟨⟨0, 1, false, false, false⟩⟩)
      (Forest.cons 1 none .nil .nil) .nil)
    1 [1, 2] 0
    (Forest.cons 0 (some ⟨⟨1, 1, false, true, true⟩⟩)
      (Forest.cons 1 none .nil .nil) .nil)
    (by decide)
    (by norm_num [Forest.tickLifetimes, Timer.tick, Forest.find])
    (by norm_num [lifetimeJustFinished, Forest.rootLifetime])

/-- Counterexample for C9 as stated: with no targets present, a tower whose
one-second repeating cooldown completes on a one-second tick spawns no bullet
(`none`), yet its timer completes (`justFinished`) and its elapsed time is
reset from `0 + 1` back to `0` — i.e. the cooldown is reset to full on a tick
where no bullet is spawned. -/
theorem cooldown_reset_without_firing :
    (tower_shooting_step 0 ⟨⟨0, 1, true, false, false⟩, ⟨0, 0, 0⟩⟩ ⟨⟨0, 0, 0⟩⟩ [] 1).2
      = none ∧
    (tower_shooting_step 0 ⟨⟨0, 1, true, false, false⟩, ⟨0, 0, 0⟩⟩ ⟨⟨0, 0, 0⟩⟩ []
      1).1.shooting_timer.justFinished = true ∧
    (tower_shooting_step 0 ⟨⟨0, 1, true, false, false⟩, ⟨0, 0, 0⟩⟩ ⟨⟨0, 0, 0⟩⟩ []
      1).1.shooting_timer.elapsed = 0 := by
  refine ⟨tower_shooting_step_none_of_no_targets 0 _ _ 1, ?_, ?_⟩ <;>
    · rw [tower_shooting_step_fst]
      norm_num [Timer.tick, qmod]

/-- C9 (amended): the cooldown timer's duration (and repeat flag) is constant
across all ticks; the `Tower` component update is the timer tick alone and is
independent of the target set and of whether a bullet is spawned; and for the
repeating cooldown the timer completes exactly when the accumulated elapsed
time reaches the duration, at which point the elapsed time is reset by
wrapping modulo the duration — whether or not a bullet was spawned on that
tick. -/
theorem cooldown_duration_constant_resets_on_completion (tower_ent : ℕ) (tower : Tower)
    (transform : GlobalTransform) (targets : List GlobalTransform) (delta : ℚ) :
    (tower_shooting_step tower_ent tower transform targets delta).1 =
      { tower with shooting_timer := tower.shooting_timer.tick delta } ∧
    (tower.shooting_timer.tick delta).duration = tower.shooting_timer.duration ∧
    (tower.shooting_timer.tick delta).repeating = tower.shooting_timer.repeating ∧
    (tower.shooting_timer.repeating = true →
      ((tower.shooting_timer.tick delta).justFinished = true ↔
        tower.shooting_timer.duration ≤ tower.shooting_timer.elapsed + delta)) ∧
    (tower.shooting_timer.repeating = true →
      (tower.shooting_timer.tick delta).justFinished = true →
      (tower.shooting_timer.tick delta).elapsed =
        qmod (tower.shooting_timer.elapsed + delta) tower.shooting_timer.duration) := by
  refine ⟨tower_shooting_step_fst tower_ent tower transform targets delta,
    Timer.tick_duration _ _, Timer.tick_repeating _ _, ?_, ?_⟩
  · intro hr
    by_cases hc : tower.shooting_timer.duration ≤ tower.shooting_timer.elapsed + delta <;>
      simp [Timer.tick, hr, hc]
  · intro hr hjf
    by_cases hc : tower.shooting_timer.duration ≤ tower.shooting_timer.elapsed + delta
    · simp [Timer.tick, hr, hc]
    · simp [Timer.tick, hr, hc] at hjf

/-- Witness for C9 (amended) at a concrete tower, empty target set and a
one-second tick. -/
theorem cooldown_duration_constant_resets_on_completion_witness :
    (tower_shooting_step 0 ⟨⟨0, 1, true, false, false⟩, ⟨0, 0, 0⟩⟩ ⟨⟨0, 0, 0⟩⟩ [] 1).1 =
      { Tower.mk ⟨0, 1, true, false, false⟩ ⟨0, 0, 0⟩ with
        shooting_timer := (Timer.mk 0 1 true false false).tick 1 } ∧
    ((Timer.mk 0 1 true false false).tick 1).duration =
      (Timer.mk 0 1 true false false).duration ∧
    ((Timer.mk 0 1 true false false).tick 1).repeating =
      (Timer.mk 0 1 true false false).repeating ∧
    ((Timer.mk 0 1 true false false).repeating = true →
      (((Timer.mk 0 1 true false false).tick 1).justFinished = true ↔
        (Timer.mk 0 1 true false false).duration ≤
          (Timer.mk 0 1 true false false).elapsed + 1)) ∧
    ((Timer.mk 0 1 true false false).repeating = true →
      ((Timer.mk 0 1 true false false).tick 1).justFinished = true →
      ((Timer.mk 0 1 true false false).tick 1).elapsed =
        qmod ((Timer.mk 0 1 true false false).elapsed + 1)
          (Timer.mk 0 1 true false false).duration) :=
  cooldown_duration_constant_resets_on_completion 0 ⟨⟨0, 1, true, false, false⟩, ⟨0, 0, 0⟩⟩
    ⟨⟨0, 0, 0⟩⟩ [] 1

lemma tower_shooting_step_parent (tower_ent : ℕ) (tower : Tower)
    (transform : GlobalTransform) (targets : List GlobalTransform) (delta : ℚ)
    (b : BulletSpawn)
    (hspawn : (tower_shooting_step tower_ent tower transform targets delta).2 = some b) :
    b.parent = tower_ent := by
  unfold tower_shooting_step at hspawn
  dsimp only at hspawn
  split at hspawn
  · split at hspawn
    · cases hspawn
      rfl
    · cases hspawn
  · cases hspawn

lemma tower_shooting_parent_mem (towers : List (ℕ × Tower × GlobalTransform))
    (targets : List GlobalTransform) (delta : ℚ) :
    ∀ b ∈ (tower_shooting towers targets delta).2,
      b.parent ∈ towers.map (fun x => x.1) := by
  induction towers with
  | nil => simp [tower_shooting]
  | cons hd rest ih =>
      obtain ⟨e0, tw, tr⟩ := hd
      intro b hb
      unfold tower_shooting at hb
      dsimp only at hb
      rcases List.mem_append.mp hb with h | h
      · cases hsp : (tower_shooting_step e0 tw tr targets delta).2 with
        | none => rw [hsp] at h; cases h
        | some b' =>
            rw [hsp] at h
            rcases List.mem_singleton.mp h with rfl
            have hp := tower_shooting_step_parent e0 tw tr targets delta _ hsp
            rw [List.map_cons, hp]
            exact List.mem_cons_self _ _
      · exact List.mem_cons_of_mem _ (ih b h)

/-- C10: for every tower and every single tick, the firing system spawns at
most one bullet whose parent is that tower, for any tick delta — including a
delta spanning two or more full cooldown durations, which collapses into a
single completion and a single shot. -/
theorem at_most_one_bullet_per_tower_per_tick (towers : List (ℕ × Tower × GlobalTransform))
    (targets : List GlobalTransform) (delta : ℚ) (e : ℕ)
    (hnd : (towers.map (fun x => x.1)).Nodup) :
    ((tower_shooting towers targets delta).2.filter (fun b => b.parent == e)).length ≤ 1 := by
  induction towers with
  | nil => simp [tower_shooting]
  | cons hd rest ih =>
      obtain ⟨e0, tw, tr⟩ := hd
      rw [List.map_cons] at hnd
      have he0 : e0 ∉ rest.map (fun x => x.1) := (List.nodup_cons.mp hnd).1
      have hrest : (rest.map (fun x => x.1)).Nodup := (List.nodup_cons.mp hnd).2
      unfold tower_shooting
      dsimp only
      rw [List.filter_append, List.length_append]
      by_cases heq : e0 = e
      · subst heq
        have hrest0 :
            (tower_shooting rest targets delta).2.filter (fun b => b.parent == e0) = [] := by
          rw [List.filter_eq_nil_iff]
          intro b hb
          have hmem := tower_shooting_parent_mem rest targets delta b hb
          simp only [beq_iff_eq]
          intro hbe
          exact he0 (hbe ▸ hmem)
        rw [hrest0]
        have hhd : ((tower_shooting_step e0 tw tr targets delta).2.toList.filter
            (fun b => b.parent == e0)).length ≤ 1 := by
          cases hsp : (tower_shooting_step e0 tw tr targets delta).2 with
          | none => simp
          | some b =>
              simp only [Option.toList_some, List.filter_singleton]
              by_cases hb : (b.parent == e0) = true <;> simp [hb]
        simpa using hhd
      · have hhd0 : ((tower_shooting_step e0 tw tr targets delta).2.toList.filter
            (fun b => b.parent == e)).length = 0 := by
          cases hsp : (tower_shooting_step e0 tw tr targets delta).2 with
          | none => simp
          | some b =>
              have hp := tower_shooting_step_parent e0 tw tr targets delta b hsp
              simp only [Option.toList_some, List.filter_singleton]
              have : (b.parent == e) = false := by
                simp [hp, heq]
              simp [this]
        rw [hhd0]
        simpa using ih hrest

/-- Witness for C10: two towers with distinct entity ids, one target, and a
tick delta of `2` that spans two full one-second cooldown periods; tower `0`
still contributes at most one bullet. -/
theorem at_most_one_bullet_per_tower_per_tick_witness :
    ((tower_shooting
        [(0, ⟨⟨0, 1, true, false, false⟩, ⟨0, 0, 0⟩⟩, ⟨⟨0, 0, 0⟩⟩),
         (1, ⟨⟨0, 1, true, false, false⟩, ⟨0, 0, 0⟩⟩, ⟨⟨4, 0, 0⟩⟩)]
        [⟨⟨2, 0, 0⟩⟩] 2).2.filter (fun b => b.parent == 0)).length ≤ 1 :=
  at_most_one_bullet_per_tower_per_tick
    [(0, ⟨⟨0, 1, true, false, false⟩, ⟨0, 0, 0⟩⟩, ⟨⟨0, 0, 0⟩⟩),
     (1, ⟨⟨0, 1, true, false, false⟩, ⟨0, 0, 0⟩⟩, ⟨⟨4, 0, 0⟩⟩)]
    [⟨⟨2, 0, 0⟩⟩] 2 0 (by decide)
